import Mathlib

/-!
Shallow embedding of the schema-translation core of `api_sync_generator`
(`src/api_sync_generator/parser.py`) and verification of its specification.

Python dicts are modelled as association lists preserving insertion order;
absent optional keys are `Option.none`; `dict.get(k, default)` becomes
`Option.getD`.  Python's `set(...)` has an unspecified (hash-seed dependent)
iteration order, so every function that passes through `" | ".join(set(ts))`
is parameterised by an order function `f : List String → List String`
constrained only by `SetOrderOK` (the elements of `f l` are exactly the
distinct elements of `l`).
-/

/-- A JSON scalar as it appears in `enum` lists and constraint fields. -/
inductive Json where
  | str (s : String)
  | int (n : Int)
  | bool (b : Bool)
  | null
deriving DecidableEq, Repr

/-- Python `str(v)` on a JSON scalar. -/
def pyStr : Json → String
  | .str s => s
  | .int n => toString n
  | .bool b => if b then "True" else "False"
  | .null => "None"

/-- A schema node: the dict fields that `parser.py` reads.  `ref` models key
`$ref` (presence tested by `"$ref" in schema_prop`), `items` models
`schema_prop.get("items", {})` (where `none` stands for the absent key, which
Python replaces by the empty dict `{}` that translates to `"any"`),
`addProps` models `additionalProperties` (presence tested), `anyOf` presence
tested, `properties` and `required` model `spec.get("properties", {})` /
`spec.get("required", [])`, `enum` presence tested, and the remaining fields
are the scalar keys copied into parsed properties. -/
inductive Schema where
  | mk (ref type fmt : Option String)
       (items addProps : Option Schema)
       (anyOf : Option (List Schema))
       (enum : Option (List Json))
       (properties : List (String × Schema))
       (required : List String)
       (description title : Option String)
       (minLength maxLength : Option Int)
       (pattern : Option String)
       (minimum maximum : Option Json)

def Schema.type : Schema → Option String
  | .mk _ t _ _ _ _ _ _ _ _ _ _ _ _ _ _ => t

def Schema.ref : Schema → Option String
  | .mk r _ _ _ _ _ _ _ _ _ _ _ _ _ _ _ => r

def Schema.anyOf : Schema → Option (List Schema)
  | .mk _ _ _ _ _ a _ _ _ _ _ _ _ _ _ _ => a

def Schema.enum : Schema → Option (List Json)
  | .mk _ _ _ _ _ _ e _ _ _ _ _ _ _ _ _ => e

def Schema.properties : Schema → List (String × Schema)
  | .mk _ _ _ _ _ _ _ p _ _ _ _ _ _ _ _ => p

def Schema.required : Schema → List String
  | .mk _ _ _ _ _ _ _ _ r _ _ _ _ _ _ _ => r

def Schema.description : Schema → Option String
  | .mk _ _ _ _ _ _ _ _ _ d _ _ _ _ _ _ => d

def Schema.title : Schema → Option String
  | .mk _ _ _ _ _ _ _ _ _ _ t _ _ _ _ _ => t

def Schema.minLength : Schema → Option Int
  | .mk _ _ _ _ _ _ _ _ _ _ _ m _ _ _ _ => m

def Schema.maxLength : Schema → Option Int
  | .mk _ _ _ _ _ _ _ _ _ _ _ _ m _ _ _ => m

def Schema.pattern : Schema → Option String
  | .mk _ _ _ _ _ _ _ _ _ _ _ _ _ p _ _ => p

def Schema.minimum : Schema → Option Json
  | .mk _ _ _ _ _ _ _ _ _ _ _ _ _ _ m _ => m

def Schema.maximum : Schema → Option Json
  | .mk _ _ _ _ _ _ _ _ _ _ _ _ _ _ _ m => m

/-- The schema node with every key absent: Python's `{}`. -/
def Schema.empty : Schema :=
  .mk none none none none none none none [] [] none none none none none none none

/-- Python `s.split(sep)` with an explicit one-character separator, on the
character list of `s`: `"".split(sep) == [""]`, empty segments kept. -/
def pySplit (sep : Char) : List Char → List (List Char)
  | [] => [[]]
  | c :: rest =>
    if c = sep then [] :: pySplit sep rest
    else
      match pySplit sep rest with
      | [] => [[c]]
      | p :: ps => (c :: p) :: ps

mutual

/-- `SchemaParser._translate_type`.  `f` stands for the iteration order of
Python's `set(...)` on line 79 (`" | ".join(set(types))`).  The `items`
branch for an absent `items` key inlines one step: Python translates the
default `{}`, which yields `"any"`.  The `$ref` branch is
`ref.split("/")[-1]`. -/
def translateType (f : List String → List String) : Schema → String
  | .mk ref ty fmt items addProps anyOf _ _ _ _ _ _ _ _ _ _ =>
    match ref with
    | some r => ⟨(pySplit '/' r.data).getLastD []⟩
    | none =>
      let t := ty.getD "any"
      if t = "string" then
        if fmt = some "date" ∨ fmt = some "date-time" then "string" else "string"
      else if t = "integer" ∨ t = "number" then "number"
      else if t = "boolean" then "boolean"
      else if t = "array" then
        (match items with
         | some it => translateType f it
         | none => "any") ++ "[]"
      else if t = "object" then
        match addProps with
        | some v => "\x7b [key: string]: " ++ translateType f v ++ " \x7d"
        | none => "any"
      else
        match anyOf with
        | some branches =>
          let types := translateList f branches
          if types.length = 1 then types.headD "" else String.intercalate " | " (f types)
        | none => "any"
decreasing_by
  all_goals simp_wf
  all_goals omega

/-- The comprehension of line 75: `[self._translate_type(t) for t in
schema_prop["anyOf"] if t.get("type") != "null"]`. -/
def translateList (f : List String → List String) : List Schema → List String
  | [] => []
  | b :: rest =>
    (if b.type ≠ some "null" then [translateType f b] else []) ++ translateList f rest
decreasing_by
  all_goals simp_wf
  all_goals omega

end

/-- Admissible iteration orders for Python's `set` on a list of strings:
the result enumerates exactly the distinct elements, each once. -/
def SetOrderOK (f : List String → List String) : Prop :=
  ∀ l : List String, (f l).Nodup ∧ ∀ a, a ∈ f l ↔ a ∈ l

/-- One concrete admissible order (used to instantiate theorems). -/
def dedupOrder (l : List String) : List String := l.dedup

theorem dedupOrder_ok : SetOrderOK dedupOrder :=
  fun l => ⟨l.nodup_dedup, fun _ => List.mem_dedup⟩

/-! ## Parsed IR records (`ParsedProperty`, `ParsedInterface`, `ParsedParam`,
`ParsedEndpoint` in `parser.py`) -/

structure ParsedProperty where
  ts_type : String
  description : Option String := none
  min_length : Option Int := none
  max_length : Option Int := none
  pattern : Option String := none
  minimum : Option Json := none
  maximum : Option Json := none
  optional : Bool := false
deriving DecidableEq, Repr

structure ParsedInterface where
  name : String
  properties : List (String × ParsedProperty)
  is_enum : Bool := false
  enum_values : List String := []
  description : Option String := none
deriving DecidableEq, Repr

structure ParsedParam where
  name : String
  type : String
  description : Option String := none
deriving DecidableEq, Repr

structure ParsedEndpoint where
  path : String
  method : String
  operation_id : String
  summary : Option String := none
  description : Option String := none
  url_params : List ParsedParam
  query_params : List ParsedParam
  request_body_type : Option String := none
  response_body_type : Option String := none
  is_array_response : Bool := false
deriving DecidableEq, Repr

/-- The result of `SchemaParser.parse`: the `interfaces` dict and the
`endpoints` list. -/
structure ParsedIR where
  interfaces : List (String × ParsedInterface)
  endpoints : List ParsedEndpoint
deriving Repr

/-! ## Input document model -/

/-- One entry of an operation's `parameters` list.  `name` is accessed as
`param["name"]` (required on well-formed documents), `loc` is
`param.get("in")`, `required` is `param.get("required", False)`, `schema` is
`param.get("schema", {})` (the absent key and the empty dict coincide). -/
structure Param where
  name : String
  loc : Option String := none
  required : Bool := false
  schema : Schema := Schema.empty
  description : Option String := none

/-- One operation object.  `requestBody` models the truthiness-filtered
chain `operation.get("requestBody", {}).get("content", {})
.get("application/json", {}).get("schema", {})` followed by `if req_body:`
(`none` when the chain bottoms out in a falsy `{}`).  `response200` models
`operation.get("responses", {}).get("200", {}).get("content", {})
.get("application/json", {})` followed by `if res_content:`; when that dict
is truthy, the payload is `res_content.get("schema", {})`. -/
structure Operation where
  tags : List String := []
  summary : Option String := none
  description : Option String := none
  operationId : Option String := none
  parameters : List Param := []
  requestBody : Option Schema := none
  response200 : Option Schema := none

/-- The document's `components` section; `schemas` may be absent. -/
structure Components where
  schemas : Option (List (String × Schema)) := none

/-- The raw schema document: the keys `SchemaParser` reads. -/
structure ApiDoc where
  components : Option Components := none
  paths : Option (List (String × List (String × Operation))) := none

/-- The slice of `GeneratorConfig` the parser consumes. -/
structure GeneratorConfig where
  exclude_tags : List String := ["@internal", "@admin_only"]

/-! ## Shared Python string helpers -/

/-- Python truthiness-based `a or b` on optional strings
(`spec.get("description") or spec.get("title")`). -/
def pyOr (a b : Option String) : Option String :=
  if a = none ∨ a = some "" then b else a

/-- A character matched by the regex class `[a-zA-Z0-9_]`. -/
def isWordChar (c : Char) : Bool := c.isAlphanum || c = '_'

/-- `re.sub(r'[^a-zA-Z0-9_]', '', s)`. -/
def pySanitize (s : String) : String := ⟨s.data.filter isWordChar⟩

/-- Python `str.capitalize()` on an ASCII character list: first character
upper-cased, the remainder lower-cased. -/
def pyCapitalize (l : List Char) : List Char :=
  match l with
  | [] => []
  | c :: cs => c.toUpper :: cs.map Char.toLower

/-- Lines 148–151 of `parser.py`: sanitize the raw id, split on `'_'`, keep
the first segment, `str.capitalize()` every later segment, concatenate. -/
def normalizeOpId (s : String) : String :=
  match pySplit '_' (s.data.filter isWordChar) with
  | [] => ""
  | p :: rest => ⟨p ++ (rest.map pyCapitalize).flatten⟩

/-- `path.replace('/', '_')` (single-character pattern). -/
def pyReplaceSlash (path : String) : String :=
  ⟨path.data.map (fun c => if c = '/' then '_' else c)⟩

/-- Python `needle in hay` on strings: contiguous substring test. -/
def pyInStr (needle hay : String) : Bool :=
  decide (needle.data <:+: hay.data)

/-- Python `s.lower()` (ASCII verbs only in this code path). -/
def pyLower (s : String) : String := ⟨s.data.map Char.toLower⟩

/-- Python `s.upper()`. -/
def pyUpper (s : String) : String := ⟨s.data.map Char.toUpper⟩

/-- Python dict assignment `d[k] = v` on an insertion-ordered dict:
overwrite in place when the key exists, else append. -/
def pyDictInsert (m : List (String × α)) (k : String) (v : α) : List (String × α) :=
  if m.any (fun p => p.1 = k) then
    m.map (fun p => if p.1 = k then (k, v) else p)
  else m ++ [(k, v)]

/-! ## `SchemaParser.parse_components` -/

/-- Lines 101–120 of `parser.py`: one iteration of the property loop, giving
the dict key (the name, `'?'`-suffixed when optional) and the parsed
property record. -/
def parseProperty (f : List String → List String) (required : List String)
    (propName : String) (propSpec : Schema) : String × ParsedProperty :=
  let optional : Bool := ¬ (propName ∈ required)
  let key := if optional then propName ++ "?" else propName
  (key,
    { ts_type := translateType f propSpec
      description := pyOr propSpec.description propSpec.title
      min_length := propSpec.minLength
      max_length := propSpec.maxLength
      pattern := propSpec.pattern
      minimum := propSpec.minimum
      maximum := propSpec.maximum
      optional := optional })

/-- Lines 87–126 of `parser.py`: the body of the schema loop, producing the
`ParsedInterface` stored under `name`. -/
def parseInterface (f : List String → List String) (name : String)
    (spec : Schema) : ParsedInterface :=
  let description := pyOr spec.description spec.title
  match spec.enum with
  | some vs =>
    { name := name
      properties := []
      is_enum := true
      enum_values := vs.map (fun v =>
        match v with
        | .str s => "\x27" ++ s ++ "\x27"
        | v => pyStr v)
      description := description }
  | none =>
    { name := name
      properties := spec.properties.foldl
        (fun acc p => pyDictInsert acc (parseProperty f spec.required p.1 p.2).1
          (parseProperty f spec.required p.1 p.2).2) []
      is_enum := false
      enum_values := []
      description := description }

/-- `SchemaParser.parse_components`: the `self.interfaces` dict after the
loop, as an insertion-ordered association list. -/
def parseComponents (f : List String → List String) (doc : ApiDoc) :
    List (String × ParsedInterface) :=
  let schemas := match doc.components with
    | none => []
    | some c => c.schemas.getD []
  schemas.foldl (fun acc p => pyDictInsert acc p.1 (parseInterface f p.1 p.2)) []

/-! ## `SchemaParser.parse_paths` -/

/-- Lines 159–168 of `parser.py`: the parameter loop, returning
`(url_params, query_params)` in encounter order. -/
def collectParams (f : List String → List String) :
    List Param → List ParsedParam × List ParsedParam
  | [] => ([], [])
  | p :: rest =>
    let (us, qs) := collectParams f rest
    let ptype := translateType f p.schema
    if p.loc = some "path" then
      (⟨p.name, ptype, p.description⟩ :: us, qs)
    else if p.loc = some "query" then
      let qname := if p.required then p.name else p.name ++ "?"
      (us, ⟨qname, ptype, p.description⟩ :: qs)
    else (us, qs)

/-- Lines 146–198 of `parser.py`: building the `ParsedEndpoint` for one
`(path, method, operation)` triple that passed the verb and exclusion
checks. -/
def mkEndpoint (f : List String → List String) (path method : String)
    (op : Operation) : ParsedEndpoint :=
  let rawId := op.operationId.getD (method ++ "_" ++ pyReplaceSlash path)
  let pq := collectParams f op.parameters
  let res := match op.response200 with
    | none => (none, false)
    | some s => (some (translateType f s), s.type.getD "" = "array")
  { path := path
    method := pyUpper method
    operation_id := normalizeOpId rawId
    summary := op.summary
    description := op.description
    url_params := pq.1
    query_params := pq.2
    request_body_type := op.requestBody.map (translateType f)
    response_body_type := res.1
    is_array_response := res.2 }

/-- The method whitelist of line 134: `method.lower() in ["get", "post",
"put", "patch", "delete"]`. -/
def supportedVerb (method : String) : Bool :=
  pyLower method ∈ ["get", "post", "put", "patch", "delete"]

/-- The inner loop of `parse_paths` over one path's method map, with the
three `continue` guards (unsupported verb, excluded tag, excluded
description substring) in source order. -/
def parseMethods (f : List String → List String) (cfg : GeneratorConfig)
    (path : String) : List (String × Operation) → List ParsedEndpoint
  | [] => []
  | (method, op) :: rest =>
    if ¬ supportedVerb method then parseMethods f cfg path rest
    else if op.tags.any (fun t => t ∈ cfg.exclude_tags) then
      parseMethods f cfg path rest
    else if cfg.exclude_tags.any (fun t => pyInStr t (op.description.getD "")) then
      parseMethods f cfg path rest
    else mkEndpoint f path method op :: parseMethods f cfg path rest

/-- `SchemaParser.parse_paths`: the `self.endpoints` list after both loops. -/
def parsePathsDoc (f : List String → List String) (cfg : GeneratorConfig)
    (doc : ApiDoc) : List ParsedEndpoint :=
  (doc.paths.getD []).foldr (fun pm acc => parseMethods f cfg pm.1 pm.2 ++ acc) []

/-- `SchemaParser.parse` / `parse_schema`: components first, then paths. -/
def parseSchema (f : List String → List String) (cfg : GeneratorConfig)
    (doc : ApiDoc) : ParsedIR :=
  { interfaces := parseComponents f doc
    endpoints := parsePathsDoc f cfg doc }

/-! ## Concrete schema-node constructors (abbreviations of `Schema.mk` with
the remaining keys absent, used in statements and witnesses) -/

/-- `{"$ref": r}`. -/
def refSchema (r : String) : Schema :=
  .mk (some r) none none none none none none [] [] none none none none none none none

/-- `{"type": t}`. -/
def typeSchema (t : String) : Schema :=
  .mk none (some t) none none none none none [] [] none none none none none none none

/-- `{"anyOf": l}`. -/
def anyOfSchema (l : List Schema) : Schema :=
  .mk none none none none none (some l) none [] [] none none none none none none none

/-- `{"type": "array", "items": it}`. -/
def arraySchema (it : Schema) : Schema :=
  .mk none (some "array") none (some it) none none none [] [] none none none none none none none

/-! ## Helper lemmas -/

/-- A set-order function sends the empty list to the empty list. -/
theorem setOrder_nil {f : List String → List String} (hf : SetOrderOK f) :
    f [] = [] := by
  rw [List.eq_nil_iff_forall_not_mem]
  intro a ha
  have h := ((hf []).2 a).1 ha
  simp at h

/-- When every branch has type `"null"`, the comprehension is empty. -/
theorem translateList_eq_nil (f : List String → List String)
    (branches : List Schema) (h : ∀ b ∈ branches, b.type = some "null") :
    translateList f branches = [] := by
  induction branches with
  | nil => simp [translateList]
  | cons b rest ih =>
    rw [translateList, h b (List.mem_cons_self b rest),
      ih (fun x hx => h x (List.mem_cons_of_mem b hx))]
    simp

/-! ## Claim C3 -/

/-- C3: when an operation declares no operationId, the endpoint's id is
synthesized as `"{verb}_{path}"` with every `'/'` of the path replaced by
`'_'`, then sanitized and camel-cased exactly like a declared id. -/
theorem c3_synthesized_id (f : List String → List String) (path method : String)
    (op : Operation) (h : op.operationId = none) :
    (mkEndpoint f path method op).operation_id
      = normalizeOpId (method ++ "_" ++ pyReplaceSlash path) := by
  simp [mkEndpoint, h]

/-- Witness for C3: path `"/users"`, verb `"post"`, no declared id — the
resulting operationId is `"postUsers"`. -/
theorem c3_synthesized_id_witness :
    (mkEndpoint dedupOrder "/users" "post" {}).operation_id
      = normalizeOpId ("post" ++ "_" ++ pyReplaceSlash "/users") ∧
    normalizeOpId ("post" ++ "_" ++ pyReplaceSlash "/users") = "postUsers" :=
  ⟨c3_synthesized_id dedupOrder "/users" "post" {} rfl, by decide⟩

/-! ## Claim C2 -/

/-- Modelled from the claim's wording of operationId normalization: remove
every character outside letters/digits/underscore, split on underscore, keep
the first segment as-is, upper-case only the first character of every later
segment while leaving that segment's remainder unchanged, concatenate. -/
def specNormalizeOpId (s : String) : String :=
  match pySplit '_' (s.data.filter isWordChar) with
  | [] => ""
  | p :: rest => ⟨p ++ (rest.map (fun q =>
      match q with
      | [] => []
      | c :: cs => c.toUpper :: cs)).flatten⟩

/-- The amended normalization: as the claim says, except that every later
segment is Python-`capitalize`d — its first character upper-cased AND its
remainder lower-cased. -/
def amendedNormalizeOpId (s : String) : String :=
  match pySplit '_' (s.data.filter isWordChar) with
  | [] => ""
  | p :: rest => ⟨p ++ (rest.map (fun q =>
      match q with
      | [] => []
      | c :: cs => c.toUpper :: cs.map Char.toLower)).flatten⟩

/-- C2 counterexample: for declared id `"get_usersID"` the claim's rule
(remainder unchanged) yields `"getUsersID"`, but the code's
`str.capitalize()` lower-cases the remainder and produces `"getUsersid"`. -/
theorem c2_capitalize_counterexample :
    (mkEndpoint dedupOrder "/users" "get"
      { operationId := some "get_usersID" }).operation_id = "getUsersid" ∧
    specNormalizeOpId "get_usersID" = "getUsersID" ∧
    ("getUsersid" : String) ≠ "getUsersID" :=
  ⟨by decide, by decide, by decide⟩

/-- C2 amended: every declared operationId is normalized by sanitizing,
splitting on underscore, keeping the first segment's casing as-is, and
`capitalize`-ing every subsequent segment (first character upper-cased,
remainder LOWER-cased), concatenated with no separator. -/
theorem c2_normalization_amended (f : List String → List String)
    (path method raw : String) (op : Operation) (h : op.operationId = some raw) :
    (mkEndpoint f path method op).operation_id = amendedNormalizeOpId raw := by
  simp [mkEndpoint, h]
  rfl

/-- Witness for C2 amended: the spec's own example
`get_users_users_get → getUsersUsersGet` holds under the amended rule. -/
theorem c2_normalization_amended_witness :
    (mkEndpoint dedupOrder "/users" "get"
      { operationId := some "get_users_users_get" }).operation_id
      = amendedNormalizeOpId "get_users_users_get" ∧
    amendedNormalizeOpId "get_users_users_get" = "getUsersUsersGet" :=
  ⟨c2_normalization_amended dedupOrder "/users" "get" "get_users_users_get"
    { operationId := some "get_users_users_get" } rfl, by decide⟩

/-! ## Claim C1 -/

/-- C1 counterexample: the claim requires the union members in lexicographic
order, so `anyOf [string, integer]` would have to produce
`"number | string"`; under the admissible set order `dedupOrder`
(first-occurrence order, realizable by Python's hash-dependent set
iteration) the code produces `"string | number"`. -/
theorem c1_union_counterexample :
    SetOrderOK dedupOrder ∧
    translateType dedupOrder (anyOfSchema [typeSchema "string", typeSchema "integer"])
      = "string | number" ∧
    ("string | number" : String) ≠ "number | string" :=
  ⟨dedupOrder_ok,
   by simp [translateType, translateList, anyOfSchema, typeSchema, Schema.type] <;> decide,
   by decide⟩

/-- C1 amended: for a union-like node in which more than one branch remains
after dropping `"null"`-typed branches, the translation returns the
translated branch types deduplicated and joined by `" | "` in an
unspecified (hash-seed dependent) set-iteration order — not necessarily
lexicographic: the result is the join of some duplicate-free list whose
members are exactly the translated remaining branch types. -/
theorem c1_union_amended (f : List String → List String) (hf : SetOrderOK f)
    (fmt : Option String) (i a : Option Schema) (branches : List Schema)
    (e : Option (List Json)) (pr : List (String × Schema)) (rq : List String)
    (d t : Option String) (mnl mxl : Option Int) (pat : Option String)
    (mn mx : Option Json)
    (h2 : 1 < (translateList f branches).length) :
    ∃ ts : List String, ts.Nodup ∧
      (∀ x, x ∈ ts ↔ x ∈ translateList f branches) ∧
      translateType f
        (.mk none none fmt i a (some branches) e pr rq d t mnl mxl pat mn mx)
        = String.intercalate " | " ts := by
  refine ⟨f (translateList f branches), (hf _).1, fun x => (hf _).2 x, ?_⟩
  rw [translateType.eq_def]
  simp
  exact fun h1 => absurd h1 (by omega)

/-- Witness for C1 amended at `anyOf [string, integer]` under `dedupOrder`. -/
theorem c1_union_amended_witness :
    1 < (translateList dedupOrder [typeSchema "string", typeSchema "integer"]).length ∧
    ∃ ts : List String, ts.Nodup ∧
      (∀ x, x ∈ ts ↔ x ∈ translateList dedupOrder [typeSchema "string", typeSchema "integer"]) ∧
      translateType dedupOrder
        (.mk none none none none none (some [typeSchema "string", typeSchema "integer"])
          none [] [] none none none none none none none)
        = String.intercalate " | " ts :=
  ⟨by simp [translateList, translateType, typeSchema, Schema.type] <;> decide,
   c1_union_amended dedupOrder dedupOrder_ok none none none _ none [] [] none none
     none none none none none
     (by simp [translateList, translateType, typeSchema, Schema.type] <;> decide)⟩

/-! ## Claim C10 -/

/-- C10: a union-like node all of whose branches are `"null"`-typed (zero
branches remain after the drop) translates to the empty string `""`, not to
the `"any"` fallback. -/
theorem c10_empty_union (f : List String → List String) (hf : SetOrderOK f)
    (fmt : Option String) (i a : Option Schema) (branches : List Schema)
    (e : Option (List Json)) (pr : List (String × Schema)) (rq : List String)
    (d t : Option String) (mnl mxl : Option Int) (pat : Option String)
    (mn mx : Option Json)
    (hall : ∀ b ∈ branches, b.type = some "null") :
    translateType f
      (.mk none none fmt i a (some branches) e pr rq d t mnl mxl pat mn mx)
      = "" := by
  have h0 := translateList_eq_nil f branches hall
  rw [translateType.eq_def]
  simp [h0, setOrder_nil hf, String.intercalate]

/-- Witness for C10 at `anyOf [{"type": "null"}]`. -/
theorem c10_empty_union_witness :
    (∀ b ∈ [typeSchema "null"], b.type = some "null") ∧
    translateType dedupOrder
      (.mk none none none none none (some [typeSchema "null"])
        none [] [] none none none none none none none)
      = "" :=
  ⟨fun b hb => by rw [List.mem_singleton] at hb; subst hb; rfl,
   c10_empty_union dedupOrder dedupOrder_ok none none none _ none [] [] none none
     none none none none none
     (fun b hb => by rw [List.mem_singleton] at hb; subst hb; rfl)⟩

/-! ## Claim C4 -/

/-- The claim's exclusion predicate: some declared tag is in the exclusion
set, or the description contains some exclusion entry as a substring. -/
def excludedOp (cfg : GeneratorConfig) (op : Operation) : Bool :=
  op.tags.any (fun tg => tg ∈ cfg.exclude_tags) ||
  cfg.exclude_tags.any (fun tg => pyInStr tg (op.description.getD ""))

/-- The inner loop keeps exactly the supported-verb, non-excluded
operations, in order. -/
theorem parseMethods_eq (f : List String → List String) (cfg : GeneratorConfig)
    (p : String) (ms : List (String × Operation)) :
    parseMethods f cfg p ms
      = (ms.filter (fun mo => supportedVerb mo.1 && ! excludedOp cfg mo.2)).map
          (fun mo => mkEndpoint f p mo.1 mo.2) := by
  induction ms with
  | nil => rfl
  | cons mo rest ih =>
    obtain ⟨m, op⟩ := mo
    by_cases h1 : supportedVerb m
    · by_cases h2 : op.tags.any (fun tg => tg ∈ cfg.exclude_tags)
      · simp [parseMethods, excludedOp, h1, h2, ih, List.filter_cons]
      · by_cases h3 : cfg.exclude_tags.any (fun tg => pyInStr tg (op.description.getD ""))
        · simp [parseMethods, excludedOp, h1, h2, h3, ih, List.filter_cons]
        · simp [parseMethods, excludedOp, h1, h2, h3, ih, List.filter_cons]
    · simp [parseMethods, excludedOp, h1, ih, List.filter_cons]

/-- C4: an operation contributes an Endpoint to the IR if and only if its
verb is supported and it is not excluded — the endpoints list is exactly the
document-ordered map of `mkEndpoint` over the supported-verb operations
whose tags do not meet the exclusion set and whose description contains no
exclusion entry as a substring; excluded operations are dropped entirely. -/
theorem c4_exclusion_filtering (f : List String → List String)
    (cfg : GeneratorConfig) (doc : ApiDoc) :
    (parseSchema f cfg doc).endpoints
      = (doc.paths.getD []).flatMap (fun pm =>
          (pm.2.filter (fun mo => supportedVerb mo.1 && ! excludedOp cfg mo.2)).map
            (fun mo => mkEndpoint f pm.1 mo.1 mo.2)) := by
  show parsePathsDoc f cfg doc = _
  unfold parsePathsDoc
  induction doc.paths.getD [] with
  | nil => rfl
  | cons pm rest ih =>
    simp only [List.foldr_cons]
    rw [parseMethods_eq, ih, List.flatMap_cons]

/-! ## Claim C6 -/

/-- C6: when the 200-status JSON-content response schema declares type
`array`, the endpoint gets `is_array_response = true` and
`response_body_type` is the full translated expression — the translated
items type with the array suffix, not a stripped element type. -/
theorem c6_array_response (f : List String → List String) (path method : String)
    (op : Operation) (fmt : Option String) (it : Schema) (a : Option Schema)
    (ao : Option (List Schema)) (e : Option (List Json))
    (pr : List (String × Schema)) (rq : List String) (d t : Option String)
    (mnl mxl : Option Int) (pat : Option String) (mn mx : Option Json)
    (h : op.response200
      = some (.mk none (some "array") fmt (some it) a ao e pr rq d t mnl mxl pat mn mx)) :
    (mkEndpoint f path method op).is_array_response = true ∧
    (mkEndpoint f path method op).response_body_type
      = some (translateType f it ++ "[]") := by
  constructor
  · simp [mkEndpoint, h, Schema.type]
  · simp [mkEndpoint, h]
    rw [translateType.eq_def]
    simp

/-- Witness for C6: response schema
`{type: array, items: {$ref: "#/components/schemas/User"}}` gives
`response_body_type = "User[]"` and `is_array_response = true`. -/
theorem c6_array_response_witness :
    (mkEndpoint dedupOrder "/users" "get"
      { response200 := some (arraySchema (refSchema "#/components/schemas/User")) }
      ).is_array_response = true ∧
    (mkEndpoint dedupOrder "/users" "get"
      { response200 := some (arraySchema (refSchema "#/components/schemas/User")) }
      ).response_body_type = some "User[]" := by
  have h := c6_array_response dedupOrder "/users" "get"
    { response200 := some (arraySchema (refSchema "#/components/schemas/User")) }
    none (refSchema "#/components/schemas/User") none none none [] [] none none
    none none none none none rfl
  refine ⟨h.1, ?_⟩
  rw [h.2]
  simp [translateType, refSchema] <;> decide

/-! ## Claim C8 -/

/-- C8: an enumeration definition of N literal members yields an interface
with `is_enum = true`, no properties, and `enum_values` of length N in
source order — string members quoted, other members stringified. -/
theorem c8_enum_interface (f : List String → List String) (nm : String)
    (spec : Schema) (vs : List Json) (h : spec.enum = some vs) :
    (parseInterface f nm spec).is_enum = true ∧
    (parseInterface f nm spec).properties = [] ∧
    (parseInterface f nm spec).enum_values.length = vs.length ∧
    (parseInterface f nm spec).enum_values = vs.map (fun v =>
      match v with
      | .str s => "\x27" ++ s ++ "\x27"
      | v => pyStr v) := by
  refine ⟨?_, ?_, ?_, ?_⟩ <;> simp [parseInterface, h]

/-- Witness for C8 at `enum: ["red", 3, true, null]`: four members, rendered
`'red'`, `3`, `True`, `None`. -/
theorem c8_enum_interface_witness :
    (parseInterface dedupOrder "Color"
      (.mk none none none none none none (some [.str "red", .int 3, .bool true, .null])
        [] [] none none none none none none none)).is_enum = true ∧
    (parseInterface dedupOrder "Color"
      (.mk none none none none none none (some [.str "red", .int 3, .bool true, .null])
        [] [] none none none none none none none)).enum_values
      = ["\x27red\x27", "3", "True", "None"] := by
  have h := c8_enum_interface dedupOrder "Color"
    (.mk none none none none none none (some [.str "red", .int 3, .bool true, .null])
      [] [] none none none none none none none)
    [.str "red", .int 3, .bool true, .null] rfl
  refine ⟨h.1, ?_⟩
  rw [h.2.2.2]
  decide

/-! ## Claim C9 -/

/-- C9: absent `components` (or absent `schemas` inside it) gives an empty
interfaces map, absent `paths` gives an empty endpoints list, and an
unrecognized declared type (with no union combinator) falls back to the
`"any"` type instead of raising. -/
theorem c9_soft_failures (f : List String → List String) (cfg : GeneratorConfig)
    (doc : ApiDoc) (ty : String) (fmt : Option String) (i a : Option Schema)
    (e : Option (List Json)) (pr : List (String × Schema)) (rq : List String)
    (d t : Option String) (mnl mxl : Option Int) (pat : Option String)
    (mn mx : Option Json) :
    (doc.components = none → (parseSchema f cfg doc).interfaces = []) ∧
    (doc.components = some { schemas := none } →
      (parseSchema f cfg doc).interfaces = []) ∧
    (doc.paths = none → (parseSchema f cfg doc).endpoints = []) ∧
    (ty ∉ (["string", "integer", "number", "boolean", "array", "object"] : List String) →
      translateType f (.mk none (some ty) fmt i a none e pr rq d t mnl mxl pat mn mx)
        = "any") := by
  refine ⟨fun h => ?_, fun h => ?_, fun h => ?_, fun h => ?_⟩
  · simp [parseSchema, parseComponents, h]
  · simp [parseSchema, parseComponents, h]
  · simp [parseSchema, parsePathsDoc, h]
  · simp only [List.mem_cons, not_or] at h
    obtain ⟨h1, h2, h3, h4, h5, h6, -⟩ := h
    rw [translateType.eq_def]
    simp [h1, h2, h3, h4, h5, h6]

/-- Witness for C9: the empty document parses to an empty IR, and type
`"weird"` translates to `"any"`. -/
theorem c9_soft_failures_witness :
    (parseSchema dedupOrder {} {}).interfaces = [] ∧
    (parseSchema dedupOrder {} {}).endpoints = [] ∧
    translateType dedupOrder
      (.mk none (some "weird") none none none none none [] [] none none none
        none none none none) = "any" := by
  have h := c9_soft_failures dedupOrder {} {} "weird" none none none none [] []
    none none none none none none none
  exact ⟨h.1 rfl, h.2.2.1 rfl, h.2.2.2 (by decide)⟩

/-! ## Claim C7 -/

/-- Folding Python dict insertion over pairs whose keys are fresh is plain
appending. -/
theorem foldl_pyDictInsert_eq {β : Type} (ps acc : List (String × β))
    (h : ((acc ++ ps).map Prod.fst).Nodup) :
    ps.foldl (fun a p => pyDictInsert a p.1 p.2) acc = acc ++ ps := by
  induction ps generalizing acc with
  | nil => simp
  | cons p rest ih =>
    have hd : List.Disjoint (acc.map Prod.fst) (p.1 :: rest.map Prod.fst) :=
      List.disjoint_of_nodup_append (by simpa using h)
    have hmem : p.1 ∉ acc.map Prod.fst :=
      fun hx => hd hx (List.mem_cons_self _ _)
    have hins : pyDictInsert acc p.1 p.2 = acc ++ [p] := by
      rw [pyDictInsert, if_neg]
      simp only [List.any_eq_true, decide_eq_true_eq, not_exists, not_and]
      intro q hq hq1
      exact hmem (hq1 ▸ List.mem_map_of_mem Prod.fst hq)
    rw [List.foldl_cons, hins, ih (acc ++ [p]) (by simpa using h)]
    simp

/-- C7: for every property a non-enum definition declares, the parsed
`optional` flag is false exactly when the name is in the required list, the
stored key is the name with a `'?'` suffix exactly when optional, and the
key/record pair lands in the interface's property map (stated under
distinctness of the suffixed keys, without which Python's dict overwrites). -/
theorem c7_optional_flag (f : List String → List String) (nm : String)
    (spec : Schema) (hen : spec.enum = none)
    (hnd : (spec.properties.map
      (fun p => (parseProperty f spec.required p.1 p.2).1)).Nodup)
    (pn : String) (ps : Schema) (hmem : (pn, ps) ∈ spec.properties) :
    ((parseProperty f spec.required pn ps).2.optional = false ↔ pn ∈ spec.required) ∧
    ((parseProperty f spec.required pn ps).1 = pn ++ "?"
      ↔ (parseProperty f spec.required pn ps).2.optional = true) ∧
    parseProperty f spec.required pn ps ∈ (parseInterface f nm spec).properties := by
  have hq : pn ≠ pn ++ "?" := by
    intro hpq
    have := congrArg (fun s => s.data.length) hpq
    simp [String.data_append] at this
  refine ⟨?_, ?_, ?_⟩
  · by_cases hr : pn ∈ spec.required <;> simp [parseProperty, hr]
  · by_cases hr : pn ∈ spec.required <;> simp [parseProperty, hr, hq]
  · rw [parseInterface]
    simp only [hen]
    have hfold : spec.properties.foldl
        (fun acc p => pyDictInsert acc (parseProperty f spec.required p.1 p.2).1
          (parseProperty f spec.required p.1 p.2).2) []
        = spec.properties.map (fun p => parseProperty f spec.required p.1 p.2) := by
      have hmapfold := List.foldl_map
        (fun p => parseProperty f spec.required p.1 p.2)
        (fun (a : List (String × ParsedProperty)) q => pyDictInsert a q.1 q.2)
        spec.properties []
      rw [← hmapfold]
      exact foldl_pyDictInsert_eq _ [] (by simpa [Function.comp] using hnd)
    simp only [hfold]
    exact List.mem_map_of_mem _ hmem

/-- Witness for C7: definition with properties `a`, `b` and required
`["a"]` — `a` stays required with key `"a"`, `b` becomes optional with key
`"b?"`. -/
theorem c7_optional_flag_witness :
    ((parseProperty dedupOrder ["a"] "a" Schema.empty).2.optional = false ↔
      "a" ∈ (["a"] : List String)) ∧
    ((parseProperty dedupOrder ["a"] "a" Schema.empty).1 = "a" ++ "?" ↔
      (parseProperty dedupOrder ["a"] "a" Schema.empty).2.optional = true) ∧
    parseProperty dedupOrder ["a"] "a" Schema.empty ∈
      (parseInterface dedupOrder "T"
        (.mk none none none none none none none
          [("a", Schema.empty), ("b", Schema.empty)] ["a"]
          none none none none none none none)).properties :=
  c7_optional_flag dedupOrder "T"
    (.mk none none none none none none none
      [("a", Schema.empty), ("b", Schema.empty)] ["a"]
      none none none none none none none)
    rfl (by decide) "a" Schema.empty (List.mem_cons_self _ _)

/-! ## Claim C5 -/

/-- Every endpoint the inner loop emits is `mkEndpoint` of some pair. -/
theorem mem_parseMethods {f : List String → List String}
    {cfg : GeneratorConfig} {p : String} {ms : List (String × Operation)}
    {e : ParsedEndpoint} (he : e ∈ parseMethods f cfg p ms) :
    ∃ m op, e = mkEndpoint f p m op := by
  induction ms with
  | nil => simp [parseMethods] at he
  | cons mo rest ih =>
    obtain ⟨m, op⟩ := mo
    rw [parseMethods] at he
    split_ifs at he
    all_goals
      first
      | exact ih he
      | (rcases List.mem_cons.1 he with h | h <;>
          first
          | exact ⟨m, op, h⟩
          | exact ih h)

/-- Every endpoint of the IR is `mkEndpoint` of some triple. -/
theorem mem_parsePathsDoc {f : List String → List String}
    {cfg : GeneratorConfig} {doc : ApiDoc} {e : ParsedEndpoint}
    (he : e ∈ parsePathsDoc f cfg doc) :
    ∃ p m op, e = mkEndpoint f p m op := by
  unfold parsePathsDoc at he
  revert he
  induction doc.paths.getD [] with
  | nil => intro he; simp at he
  | cons pm rest ih =>
    intro he
    rw [List.foldr_cons] at he
    rcases List.mem_append.1 he with h | h
    · obtain ⟨m, op, hh⟩ := mem_parseMethods h
      exact ⟨pm.1, m, op, hh⟩
    · exact ih h

/-- `pySplit` never returns the empty list of segments. -/
theorem pySplit_ne_nil (sep : Char) (l : List Char) : pySplit sep l ≠ [] := by
  induction l with
  | nil => simp [pySplit]
  | cons c rest ih =>
    rw [pySplit]
    split_ifs
    · simp
    · cases h : pySplit sep rest with
      | nil => simp
      | cons p ps => simp

/-- A non-separator character of the input lands in some segment. -/
theorem mem_pySplit_of_mem (sep c : Char) (l : List Char) (hc : c ∈ l)
    (hne : c ≠ sep) : ∃ p ∈ pySplit sep l, c ∈ p := by
  induction l with
  | nil => simp at hc
  | cons a rest ih =>
    rw [pySplit]
    by_cases ha : a = sep
    · rw [if_pos ha]
      rcases List.mem_cons.1 hc with h | h
      · exact absurd (h.trans ha) hne
      · obtain ⟨p, hp, hcp⟩ := ih h
        exact ⟨p, List.mem_cons_of_mem _ hp, hcp⟩
    · rw [if_neg ha]
      rcases List.mem_cons.1 hc with h | h
      · cases hsp : pySplit sep rest with
        | nil => exact ⟨[a], by simp, by simp [h]⟩
        | cons p0 ps => exact ⟨a :: p0, by simp, by simp [h]⟩
      · obtain ⟨p, hp, hcp⟩ := ih h
        cases hsp : pySplit sep rest with
        | nil => rw [hsp] at hp; simp at hp
        | cons p0 ps =>
          rw [hsp] at hp
          rcases List.mem_cons.1 hp with h0 | h0
          · exact ⟨a :: p0, by simp, by rw [← h0]; exact List.mem_cons_of_mem _ hcp⟩
          · exact ⟨p, by simp [h0], hcp⟩

/-- The normalized id is non-empty as soon as the raw id has an
alphanumeric character. -/
theorem normalizeOpId_ne_empty (raw : String)
    (h : ∃ c ∈ raw.data, c.isAlphanum) : normalizeOpId raw ≠ "" := by
  obtain ⟨c, hc, hca⟩ := h
  have hcw : isWordChar c = true := by simp [isWordChar, hca]
  have hmemf : c ∈ raw.data.filter isWordChar := List.mem_filter.2 ⟨hc, hcw⟩
  have hne : c ≠ '_' := by
    intro h'
    rw [h'] at hca
    simp [Char.isAlphanum, Char.isAlpha, Char.isUpper, Char.isLower,
      Char.isDigit] at hca
  obtain ⟨p, hp, hcp⟩ := mem_pySplit_of_mem '_' c _ hmemf hne
  unfold normalizeOpId
  cases hsp : pySplit '_' (raw.data.filter isWordChar) with
  | nil => exact absurd hsp (pySplit_ne_nil _ _)
  | cons p0 ps =>
    rw [hsp] at hp
    intro hEq
    have hdata : p0 ++ (ps.map pyCapitalize).flatten = [] := by
      have := congrArg String.data hEq
      simpa using this
    rcases List.append_eq_nil.1 hdata with ⟨h0, hfl⟩
    rcases List.mem_cons.1 hp with hh | hh
    · rw [hh, h0] at hcp
      simp at hcp
    · have hnilcap : pyCapitalize p = [] :=
        List.flatten_eq_nil_iff.1 hfl (pyCapitalize p)
          (List.mem_map_of_mem pyCapitalize hh)
      cases p with
      | nil => simp at hcp
      | cons x xs => simp [pyCapitalize] at hnilcap

/-- C5 counterexample: a declared operationId `"!!!"` consists entirely of
characters outside letters/digits/underscore; the parser still emits the
endpoint, but with an empty operationId, so the claimed non-emptiness
invariant fails. -/
theorem c5_nonempty_counterexample :
    ((parseSchema dedupOrder {}
      { paths := some [("/x", [("get", { operationId := some "!!!" })])] }
      ).endpoints.map (fun e => e.operation_id)) = [""] := by decide

/-- C5 amended: every Endpoint of the IR comes from some `(path, method,
operation)` triple, and its operationId is the camel-casing of THAT
operation's declared-or-synthesized raw id
`op.operationId.getD (method ++ "_" ++ pyReplaceSlash path)`: the raw id's
sanitized form consists only of alphanumeric/underscore characters, and the
endpoint's operationId is non-empty whenever that raw id contains at least
one alphanumeric character (it can be empty when a declared id contains
none). -/
theorem c5_amended (f : List String → List String) (cfg : GeneratorConfig)
    (doc : ApiDoc) (e : ParsedEndpoint)
    (he : e ∈ (parseSchema f cfg doc).endpoints) :
    ∃ (p m : String) (op : Operation),
      e = mkEndpoint f p m op ∧
      e.operation_id
        = normalizeOpId (op.operationId.getD (m ++ "_" ++ pyReplaceSlash p)) ∧
      (pySanitize (op.operationId.getD (m ++ "_" ++ pyReplaceSlash p))).data.all
        isWordChar = true ∧
      ((∃ c ∈ (op.operationId.getD (m ++ "_" ++ pyReplaceSlash p)).data,
          c.isAlphanum) → e.operation_id ≠ "") := by
  obtain ⟨p, m, op, heq⟩ := mem_parsePathsDoc he
  refine ⟨p, m, op, heq, ?_, ?_, ?_⟩
  · rw [heq]
    simp [mkEndpoint]
  · rw [List.all_eq_true]
    intro x hx
    exact List.of_mem_filter (by simpa [pySanitize] using hx)
  · intro hex
    rw [heq]
    have h1 : (mkEndpoint f p m op).operation_id
        = normalizeOpId (op.operationId.getD (m ++ "_" ++ pyReplaceSlash p)) := by
      simp [mkEndpoint]
    rw [h1]
    exact normalizeOpId_ne_empty _ hex

/-- Witness for C5 amended on a document with declared id `"get_users"`. -/
theorem c5_amended_witness :
    ∃ (p m : String) (op : Operation),
      mkEndpoint dedupOrder "/users" "get" { operationId := some "get_users" }
        = mkEndpoint dedupOrder p m op ∧
      (mkEndpoint dedupOrder "/users" "get"
          { operationId := some "get_users" }).operation_id
        = normalizeOpId (op.operationId.getD (m ++ "_" ++ pyReplaceSlash p)) ∧
      (pySanitize (op.operationId.getD (m ++ "_" ++ pyReplaceSlash p))).data.all
        isWordChar = true ∧
      ((∃ c ∈ (op.operationId.getD (m ++ "_" ++ pyReplaceSlash p)).data,
          c.isAlphanum) →
        (mkEndpoint dedupOrder "/users" "get"
          { operationId := some "get_users" }).operation_id ≠ "") :=
  c5_amended dedupOrder {}
    { paths := some [("/users", [("get", { operationId := some "get_users" })])] }
    (mkEndpoint dedupOrder "/users" "get" { operationId := some "get_users" })
    (by decide)
